import Mathlib

/-!
The qtrn chart command (src/cli/chart.go).

A shallow embedding of the three functions of the chart command,
chartFunc, fetchChartPoints and draw, together with the properties of the
fetch-and-chart pipeline.

The quote provider (go-finance), the decimal type of the adjusted close and the
terminal library (termui) are collaborators of the command, not part of it.
They enter the model through the record Env: every call the command makes into
them is a field of that record, so each statement below holds for every
behaviour of the collaborators.

Effects are made explicit: chartFunc and draw return the list of calls they
made, in order, and an Outcome saying whether the function returned or
panicked.
-/

namespace Qtrn

/-! ## Data model -/

/-- The go-finance Datetime fields that the chart command reads. -/
structure Datetime where
  Month : Int
  Day : Int
  Year : Int
deriving DecidableEq, Repr

/-- One historical bar of the provider: the fields the chart command reads.
The type D is the provider's decimal type. -/
structure Bar (D : Type) where
  Date : Datetime
  AdjClose : D

/-- The fields of the termui line chart widget that draw assigns.
F is float64. -/
structure LineChart (F : Type) where
  Mode : String
  DotStyle : Char
  BorderLabel : String
  Data : List F
  DataLabels : List String
  Width : Int
  Height : Int
  X : Int
  Y : Int
  AxesColor : Nat
  LineColor : Nat

/-- A value handed to panic: an error value, a string, or the runtime error
of an index expression (index and length). -/
inductive PanicVal (E : Type) where
  | error (e : E)
  | str (s : String)
  | indexOutOfRange (i : Int) (len : Nat)
deriving DecidableEq

/-- How a function call ends. -/
inductive Outcome (E : Type) where
  | returned
  | panicked (p : PanicVal E)
deriving DecidableEq

/-- The observable calls of the chart command, in the order they are made. The
constructor draw marks the entry into draw with its three arguments. -/
inductive Event (F : Type) where
  | printf (s : String)
  | getHistory (symbol : String) (start : Datetime) (stop : Datetime) (interval : String)
  | uiInit
  | uiClose
  | draw (symbol : String) (points : List F) (dates : List String)
  | render (chartPane : LineChart F)
  | handle (path : String)
  | loop

/-- The package-level flag variables and the collaborators of the command.

* flagStartTime, flagEndTime, flagInterval: the three flag variables;
* ParseDatetime, GetHistory: the provider; GetHistory answers with a pair
  (bars, err) as in Go, err = none being the nil error;
* Round, Float64: the two decimal methods applied to an adjusted close;
* Init: the answer of ui.Init (none is the nil error);
* NewLineChart: the widget ui.NewLineChart returns;
* ColorWhite, ColorGreen, AttrBold: the termui attribute constants;
* Render, Handle, Loop: whether the call panics (some p) or returns (none);
  Loop returning stands for the event loop being stopped by a key press. -/
structure Env (D F E : Type) where
  flagStartTime : String
  flagEndTime : String
  flagInterval : String
  ParseDatetime : String → Datetime
  GetHistory : String → Datetime → Datetime → String → List (Bar D) × Option E
  Round : D → Int → D
  Float64 : D → F × Bool
  Init : Option E
  NewLineChart : LineChart F
  ColorWhite : Nat
  ColorGreen : Nat
  AttrBold : Nat
  Render : LineChart F → Option (PanicVal E)
  Handle : String → Option (PanicVal E)
  Loop : Option (PanicVal E)

/-! ## fmt.Sprintf -/

/-- An operand of Sprintf: the chart command formats ints and strings only. -/
inductive Value where
  | int (n : Int)
  | str (s : String)

/-- The text of an operand under the verb v: an int in base 10, with a leading
minus sign when negative, and a string as it is. -/
def Value.format : Value → List Char
  | .int n => (toString n).data
  | .str s => s.data

/-- The Go type name of an operand, as printed in the diagnostics of Sprintf. -/
def Value.typeName : Value → List Char
  | .int _ => "int".data
  | .str _ => "string".data

/-- The fragment of the Go formatter that chart.go uses, on character lists:
literal text is copied, and each of the verbs %v and %+v prints the next
operand (for ints and strings the plus flag changes nothing under v). A verb
without operand prints the marker %!v(MISSING) and operands left over at the end
print the marker %!(EXTRA type=value, ...), as in Go. Other verbs and flags are
outside the fragment: their percent sign is copied like literal text. -/
def sprintfAux : List Char → List Value → List Char
  | [], [] => []
  | [], a :: rest =>
      "%!(EXTRA ".data
        ++ ", ".data.intercalate ((a :: rest).map fun v => v.typeName ++ '=' :: v.format)
        ++ [')']
  | '%' :: 'v' :: fmt, a :: rest => a.format ++ sprintfAux fmt rest
  | '%' :: '+' :: 'v' :: fmt, a :: rest => a.format ++ sprintfAux fmt rest
  | '%' :: 'v' :: fmt, [] => "%!v(MISSING)".data ++ sprintfAux fmt []
  | '%' :: '+' :: 'v' :: fmt, [] => "%!v(MISSING)".data ++ sprintfAux fmt []
  | c :: fmt, operands => c :: sprintfAux fmt operands

/-- The call fmt.Sprintf(format, operands...). -/
def Sprintf (format : String) (operands : List Value) : String :=
  ⟨sprintfAux format.data operands⟩

/-! ## Index expressions -/

/-- The Go index expression xs[i]: the element, or the runtime panic when i is
not in the range 0 ≤ i < len(xs). -/
def index {E α : Type} (xs : List α) (i : Int) : Except (PanicVal E) α :=
  if i < 0 then .error (.indexOutOfRange i xs.length)
  else
    match xs[i.toNat]? with
    | some x => .ok x
    | none => .error (.indexOutOfRange i xs.length)

/-! ## The chart command -/

/-- The three results of fetchChartPoints, and the calls it made. -/
structure FetchResult (F E : Type) where
  trace : List (Event F)
  points : List F
  dates : List String
  err : Option E

/-- The body of the range loop of fetchChartPoints: one bar is turned into a
rounded close and a date label, and each is appended to its slice. -/
def fetchStep {D F E : Type} (env : Env D F E) (acc : List F × List String) (b : Bar D) :
    List F × List String :=
  let close := (env.Float64 (env.Round b.AdjClose 2)).1
  let datetime := Sprintf "%v/%v/%v" [.int b.Date.Month, .int b.Date.Day, .int b.Date.Year]
  (acc.1 ++ [close], acc.2 ++ [datetime])

/-- The function fetchChartPoints of chart.go. The named results points and dates
start as nil slices; when the provider answers with an error the function
returns at once, with that error and the two slices still nil. -/
def fetchChartPoints {D F E : Type} (env : Env D F E) (symbol : String) (interval : String) :
    FetchResult F E :=
  let start := env.ParseDatetime env.flagStartTime
  let stop := env.ParseDatetime env.flagEndTime
  let answer := env.GetHistory symbol start stop interval
  let trace := [Event.getHistory symbol start stop interval]
  match answer.2 with
  | some e => { trace := trace, points := [], dates := [], err := some e }
  | none =>
      let acc := answer.1.foldl (fetchStep env) ([], [])
      { trace := trace, points := acc.1, dates := acc.2, err := none }

/-- The function draw of chart.go. The operands of the border label are evaluated
from left to right, so dates[0] is indexed before dates[len(dates)-1], and both
before any call into the terminal library other than NewLineChart. The trace
starts with the entry event of draw. The width is computed from the length of a
slice held in memory, far below the range of a Go int, so the sum is taken in
the integers. -/
def draw {D F E : Type} (env : Env D F E) (symbol : String) (points : List F)
    (dates : List String) : List (Event F) × Outcome E :=
  let entry := Event.draw symbol points dates
  let chartPane := env.NewLineChart
  let chartPane := { chartPane with Mode := "dot" }
  let chartPane := { chartPane with DotStyle := '+' }
  match index dates 0 with
  | .error p => ([entry], .panicked p)
  | .ok first =>
  match index dates ((dates.length : Int) - 1) with
  | .error p => ([entry], .panicked p)
  | .ok last =>
  let chartPane := { chartPane with
    BorderLabel := Sprintf "  %+v Daily Chart (%+v - %+v)  " [.str symbol, .str first, .str last] }
  let chartPane := { chartPane with Data := points }
  let chartPane := { chartPane with DataLabels := dates }
  let chartPane := { chartPane with Width := (points.length : Int) + (points.length : Int) / 10 }
  let chartPane := { chartPane with Height := 20 }
  let chartPane := { chartPane with X := 0 }
  let chartPane := { chartPane with Y := 0 }
  let chartPane := { chartPane with AxesColor := env.ColorWhite }
  let chartPane := { chartPane with LineColor := env.ColorGreen ||| env.AttrBold }
  match env.Render chartPane with
  | some p => ([entry, .render chartPane], .panicked p)
  | none =>
  match env.Handle "/sys/kbd" with
  | some p => ([entry, .render chartPane, .handle "/sys/kbd"], .panicked p)
  | none =>
  match env.Loop with
  | some p => ([entry, .render chartPane, .handle "/sys/kbd", .loop], .panicked p)
  | none => ([entry, .render chartPane, .handle "/sys/kbd", .loop], .returned)

/-- The function chartFunc of chart.go (its cobra command argument is not used).
The deferred ui.Close is registered once ui.Init has returned nil, and runs when
chartFunc ends, whether draw returned or panicked. -/
def chartFunc {D F E : Type} (env : Env D F E) (args : List String) :
    List (Event F) × Outcome E :=
  if args.length > 1 then
    ([.printf "\nToo many symbols, only 1 symbol is allowed for charting.\n\n"], .returned)
  else
  match index args 0 with
  | .error p => ([], .panicked p)
  | .ok sym =>
  let r := fetchChartPoints env sym env.flagInterval
  match r.err with
  | some e => (r.trace, .panicked (.error e))
  | none =>
  if r.points.length = 0 then
    (r.trace, .panicked (.str "no "))
  else
  match env.Init with
  | some e => (r.trace ++ [.uiInit], .panicked (.error e))
  | none =>
  let d := draw env sym r.points r.dates
  (r.trace ++ [.uiInit] ++ d.1 ++ [.uiClose], d.2)

/-! ## A sample environment -/

/-- A provider answer of five daily bars; the closes are held in cents. -/
def sampleBars : List (Bar Int) :=
  [ { Date := ⟨1, 3, 2017⟩, AdjClose := 11500 },
    { Date := ⟨1, 4, 2017⟩, AdjClose := 11625 },
    { Date := ⟨1, 5, 2017⟩, AdjClose := 11480 },
    { Date := ⟨1, 6, 2017⟩, AdjClose := 11710 },
    { Date := ⟨1, 9, 2017⟩, AdjClose := 11800 } ]

/-- An environment whose provider answers with the given pair and whose display
answers ui.Init with the given error; decimals and floats are both amounts in
cents, and no terminal call panics unless renderPanic says so. -/
def sampleEnv (answer : List (Bar Int) × Option String) (init : Option String)
    (renderPanic : Option (PanicVal String)) : Env Int Int String where
  flagStartTime := "2016-12-01"
  flagEndTime := "2017-06-20"
  flagInterval := "1d"
  ParseDatetime := fun _ => ⟨0, 0, 0⟩
  GetHistory := fun _ _ _ _ => answer
  Round := fun d _ => d
  Float64 := fun d => (d, true)
  Init := init
  NewLineChart := ⟨"", ' ', "", [], [], 0, 0, 0, 0, 0, 0⟩
  ColorWhite := 8
  ColorGreen := 3
  AttrBold := 512
  Render := fun _ => renderPanic
  Handle := fun _ => none
  Loop := none

/-! ## Auxiliary facts -/

section Auxiliary

variable {D F E : Type}

theorem Sprintf_date (m d y : Int) :
    Sprintf "%v/%v/%v" [.int m, .int d, .int y]
      = toString m ++ "/" ++ toString d ++ "/" ++ toString y := by
  apply String.ext
  simp [Sprintf, sprintfAux, Value.format]

theorem Sprintf_borderLabel (symbol first last : String) :
    Sprintf "  %+v Daily Chart (%+v - %+v)  " [.str symbol, .str first, .str last]
      = "  " ++ symbol ++ " Daily Chart (" ++ first ++ " - " ++ last ++ ")  " := by
  apply String.ext
  simp [Sprintf, sprintfAux, Value.format]

/-- The range loop of fetchChartPoints appends, to each slice, the image of the
bar list. -/
theorem foldl_fetchStep (env : Env D F E) (bars : List (Bar D))
    (acc : List F × List String) :
    bars.foldl (fetchStep env) acc
      = (acc.1 ++ bars.map (fun b => (env.Float64 (env.Round b.AdjClose 2)).1),
         acc.2 ++ bars.map (fun b =>
            Sprintf "%v/%v/%v" [.int b.Date.Month, .int b.Date.Day, .int b.Date.Year])) := by
  induction bars generalizing acc with
  | nil => simp
  | cons b bs ih => simp [ih, fetchStep]

/-- The result of fetchChartPoints on a provider answer without error. -/
theorem fetchChartPoints_of_ok (env : Env D F E) (symbol interval : String)
    (bars : List (Bar D))
    (hanswer : env.GetHistory symbol (env.ParseDatetime env.flagStartTime)
      (env.ParseDatetime env.flagEndTime) interval = (bars, none)) :
    fetchChartPoints env symbol interval =
      { trace := [.getHistory symbol (env.ParseDatetime env.flagStartTime)
          (env.ParseDatetime env.flagEndTime) interval],
        points := bars.map (fun b => (env.Float64 (env.Round b.AdjClose 2)).1),
        dates := bars.map (fun b =>
          Sprintf "%v/%v/%v" [.int b.Date.Month, .int b.Date.Day, .int b.Date.Year]),
        err := none } := by
  simp [fetchChartPoints, hanswer, foldl_fetchStep]

/-- The result of fetchChartPoints on a provider answer with an error. -/
theorem fetchChartPoints_of_error (env : Env D F E) (symbol interval : String)
    (bars : List (Bar D)) (e : E)
    (hanswer : env.GetHistory symbol (env.ParseDatetime env.flagStartTime)
      (env.ParseDatetime env.flagEndTime) interval = (bars, some e)) :
    fetchChartPoints env symbol interval =
      { trace := [.getHistory symbol (env.ParseDatetime env.flagStartTime)
          (env.ParseDatetime env.flagEndTime) interval],
        points := [], dates := [], err := some e } := by
  simp [fetchChartPoints, hanswer]

/-- Whatever the provider answers, fetchChartPoints makes the provider call and
nothing else, and hands back two slices of the same length. -/
theorem fetchChartPoints_shape (env : Env D F E) (symbol interval : String) :
    (fetchChartPoints env symbol interval).trace
        = [.getHistory symbol (env.ParseDatetime env.flagStartTime)
            (env.ParseDatetime env.flagEndTime) interval]
      ∧ (fetchChartPoints env symbol interval).points.length
          = (fetchChartPoints env symbol interval).dates.length := by
  rcases h : env.GetHistory symbol (env.ParseDatetime env.flagStartTime)
      (env.ParseDatetime env.flagEndTime) interval with ⟨bars, _ | e⟩
  · simp [fetchChartPoints_of_ok env symbol interval bars h]
  · simp [fetchChartPoints_of_error env symbol interval bars e h]

theorem index_zero_cons (x : String) (xs : List String) :
    index (E := E) (x :: xs) 0 = .ok x := by
  simp [index]

theorem index_last (xs : List String) (last : String) (h : xs.getLast? = some last) :
    index (E := E) xs ((xs.length : Int) - 1) = .ok last := by
  have hne : xs ≠ [] := by rintro rfl; simp at h
  have hpos : 0 < xs.length := List.length_pos.mpr hne
  have hcast : ((xs.length : Int) - 1) = ((xs.length - 1 : Nat) : Int) := by omega
  have hget : xs[xs.length - 1]? = some last := by
    rw [← h, List.getLast?_eq_getElem?]
  simp [index, hcast, hget]

/-- On an empty date slice draw panics at dates[0], before anything is built. -/
theorem draw_nil (env : Env D F E) (symbol : String) (points : List F) :
    draw env symbol points []
      = ([.draw symbol points []], .panicked (.indexOutOfRange 0 0)) := by
  simp [draw, index]

/-- On a date slice with first and last element draw passes both index
expressions and renders one widget, whose fields are the ones assigned in
draw; what follows the rendering is the keyboard handler and the loop. -/
theorem draw_of_first_last (env : Env D F E) (symbol : String) (points : List F)
    (dates : List String) (first last : String)
    (hfirst : dates.head? = some first) (hlast : dates.getLast? = some last) :
    ∃ (chartPane : LineChart F) (rest : List (Event F)) (o : Outcome E),
      draw env symbol points dates
          = (.draw symbol points dates :: .render chartPane :: rest, o)
        ∧ (∀ ev ∈ rest, ev = .handle "/sys/kbd" ∨ ev = .loop)
        ∧ chartPane.BorderLabel
            = "  " ++ symbol ++ " Daily Chart (" ++ first ++ " - " ++ last ++ ")  "
        ∧ chartPane.Width = ((points.length + points.length / 10 : Nat) : Int)
        ∧ chartPane.Height = 20 := by
  obtain ⟨x, xs, rfl⟩ : ∃ x xs, dates = x :: xs := by
    cases dates with
    | nil => simp at hfirst
    | cons x xs => exact ⟨x, xs, rfl⟩
  obtain rfl : x = first := by simpa using hfirst
  have h0 := index_zero_cons (E := E) x xs
  have h1 := index_last (E := E) (x :: xs) last hlast
  simp only [draw, h0, h1, Sprintf_borderLabel]
  cases hr : env.Render _ with
  | some p => exact ⟨_, [], _, rfl, by simp, rfl, by push_cast; rfl, rfl⟩
  | none =>
    cases hh : env.Handle "/sys/kbd" with
    | some p => exact ⟨_, [.handle "/sys/kbd"], _, rfl, by simp, rfl, by push_cast; rfl, rfl⟩
    | none =>
      cases hl : env.Loop with
      | some p =>
        exact ⟨_, [.handle "/sys/kbd", .loop], _, rfl, by simp, rfl, by push_cast; rfl, rfl⟩
      | none =>
        exact ⟨_, [.handle "/sys/kbd", .loop], _, rfl, by simp, rfl, by push_cast; rfl, rfl⟩

end Auxiliary

section ChartFunc

variable {D F E : Type}

theorem chartFunc_nil (env : Env D F E) :
    chartFunc env [] = ([], .panicked (.indexOutOfRange 0 0)) := by
  simp [chartFunc, index]

theorem chartFunc_many (env : Env D F E) (args : List String) (h : 1 < args.length) :
    chartFunc env args
      = ([.printf "\nToo many symbols, only 1 symbol is allowed for charting.\n\n"],
         .returned) := by
  simp [chartFunc, h]

/-- The run of chartFunc on one symbol, by cases on what fetchChartPoints and
ui.Init hand back. -/
theorem chartFunc_single (env : Env D F E) (sym : String) :
    chartFunc env [sym] =
      match (fetchChartPoints env sym env.flagInterval).err with
      | some e => ((fetchChartPoints env sym env.flagInterval).trace, .panicked (.error e))
      | none =>
        if (fetchChartPoints env sym env.flagInterval).points.length = 0 then
          ((fetchChartPoints env sym env.flagInterval).trace, .panicked (.str "no "))
        else
          match env.Init with
          | some e =>
            ((fetchChartPoints env sym env.flagInterval).trace ++ [.uiInit],
              .panicked (.error e))
          | none =>
            ((fetchChartPoints env sym env.flagInterval).trace ++ [.uiInit]
                ++ (draw env sym (fetchChartPoints env sym env.flagInterval).points
                      (fetchChartPoints env sym env.flagInterval).dates).1
                ++ [.uiClose],
              (draw env sym (fetchChartPoints env sym env.flagInterval).points
                (fetchChartPoints env sym env.flagInterval).dates).2) := by
  simp [chartFunc, index]

/-- Every event of a run of draw is the entry event, a rendering, the
registration of the keyboard handler or the loop. -/
theorem draw_events (env : Env D F E) (symbol : String) (points : List F)
    (dates : List String) :
    ∀ ev ∈ (draw env symbol points dates).1,
      ev = .draw symbol points dates ∨ (∃ chartPane, ev = .render chartPane)
        ∨ ev = .handle "/sys/kbd" ∨ ev = .loop := by
  cases dates with
  | nil => simp [draw_nil]
  | cons x xs =>
    obtain ⟨last, hlast⟩ : ∃ last, (x :: xs).getLast? = some last :=
      ⟨(x :: xs).getLast (by simp), List.getLast?_eq_getLast _ _⟩
    obtain ⟨chartPane, rest, o, hd, hrest, -⟩ :=
      draw_of_first_last env symbol points (x :: xs) x last rfl hlast
    rw [hd]
    intro ev hev
    simp only [List.mem_cons] at hev
    rcases hev with rfl | rfl | hev
    · exact Or.inl rfl
    · exact Or.inr (Or.inl ⟨_, rfl⟩)
    · exact Or.inr (Or.inr (hrest ev hev))

end ChartFunc

/-! ## The fetch step -/

section Fetch

variable {D F E : Type}

/-- C1: when the provider answers with N ≥ 1 bars and no error,
fetchChartPoints returns no error, exactly N points and exactly N labels; the
point at index i is the adjusted close of bar i rounded to 2 places and converted
to a float, the label at index i is formatted from the date of bar i, and both
slices are the image of the bar list in provider order. -/
theorem fetchChartPoints_maps_bars (env : Env D F E) (symbol interval : String)
    (bars : List (Bar D))
    (hanswer : env.GetHistory symbol (env.ParseDatetime env.flagStartTime)
      (env.ParseDatetime env.flagEndTime) interval = (bars, none))
    (hN : 1 ≤ bars.length) :
    (fetchChartPoints env symbol interval).err = none
      ∧ (fetchChartPoints env symbol interval).points.length = bars.length
      ∧ (fetchChartPoints env symbol interval).dates.length = bars.length
      ∧ (∀ (i : Nat) (hi : i < bars.length),
          (fetchChartPoints env symbol interval).points[i]?
              = some (env.Float64 (env.Round bars[i].AdjClose 2)).1
            ∧ (fetchChartPoints env symbol interval).dates[i]?
              = some (Sprintf "%v/%v/%v"
                  [.int bars[i].Date.Month, .int bars[i].Date.Day, .int bars[i].Date.Year]))
      ∧ (fetchChartPoints env symbol interval).points
          = bars.map (fun b => (env.Float64 (env.Round b.AdjClose 2)).1)
      ∧ (fetchChartPoints env symbol interval).dates
          = bars.map (fun b =>
              Sprintf "%v/%v/%v" [.int b.Date.Month, .int b.Date.Day, .int b.Date.Year])
      ∧ 1 ≤ (fetchChartPoints env symbol interval).points.length := by
  rw [fetchChartPoints_of_ok env symbol interval bars hanswer]
  refine ⟨rfl, by simp, by simp, ?_, rfl, rfl, by simpa using hN⟩
  intro i hi
  simp [List.getElem?_map, List.getElem?_eq_getElem hi]

/-- The run of the example scenario: five daily bars give five points with the
closes of the bars and five labels, in provider order. -/
theorem fetchChartPoints_maps_bars_witness :
    (sampleEnv (sampleBars, none) none none).GetHistory "AAPL"
        ((sampleEnv (sampleBars, none) none none).ParseDatetime "2016-12-01")
        ((sampleEnv (sampleBars, none) none none).ParseDatetime "2017-06-20") "1d"
        = (sampleBars, none)
      ∧ 1 ≤ sampleBars.length
      ∧ (fetchChartPoints (sampleEnv (sampleBars, none) none none) "AAPL" "1d").points
          = [11500, 11625, 11480, 11710, 11800]
      ∧ (fetchChartPoints (sampleEnv (sampleBars, none) none none) "AAPL" "1d").dates
          = ["1/3/2017", "1/4/2017", "1/5/2017", "1/6/2017", "1/9/2017"] :=
  ⟨rfl, by decide,
    (fetchChartPoints_maps_bars (sampleEnv (sampleBars, none) none none) "AAPL" "1d"
      sampleBars rfl (by decide)).2.2.2.2.1,
    (fetchChartPoints_maps_bars (sampleEnv (sampleBars, none) none none) "AAPL" "1d"
      sampleBars rfl (by decide)).2.2.2.2.2.1⟩

/-- C2: the label fetchChartPoints produces for a bar is the decimal rendering of
the month, a slash, the decimal rendering of the day, a slash, and the decimal
rendering of the year. There is no zero padding: a non-negative field below
10 ^ e takes at most e characters, so the label of a date with month below
10 ^ a, day below 10 ^ b and year below 10 ^ c has at most a + b + c + 2
characters. -/
theorem fetchChartPoints_date_label (env : Env D F E) (symbol interval : String)
    (bars : List (Bar D))
    (hanswer : env.GetHistory symbol (env.ParseDatetime env.flagStartTime)
      (env.ParseDatetime env.flagEndTime) interval = (bars, none))
    (i : Nat) (hi : i < bars.length) :
    (fetchChartPoints env symbol interval).dates[i]?
        = some (toString bars[i].Date.Month ++ "/" ++ toString bars[i].Date.Day ++ "/"
            ++ toString bars[i].Date.Year)
      ∧ ∀ (m d y a b c : Nat), bars[i].Date = ⟨m, d, y⟩ →
          0 < a → 0 < b → 0 < c → m < 10 ^ a → d < 10 ^ b → y < 10 ^ c →
          ∀ label, (fetchChartPoints env symbol interval).dates[i]? = some label →
            label.length ≤ a + b + c + 2 := by
  have hlabel : (fetchChartPoints env symbol interval).dates[i]?
      = some (toString bars[i].Date.Month ++ "/" ++ toString bars[i].Date.Day ++ "/"
          ++ toString bars[i].Date.Year) := by
    rw [fetchChartPoints_of_ok env symbol interval bars hanswer]
    simp [List.getElem?_map, List.getElem?_eq_getElem hi, Sprintf_date]
  refine ⟨hlabel, ?_⟩
  intro m d y a b c hdate ha hb hc hm hd hy label hl
  rw [hlabel, hdate] at hl
  have hlen : label.length
      = (Nat.repr m).length + 1 + (Nat.repr d).length + 1 + (Nat.repr y).length := by
    rw [← Option.some.inj hl]
    simp only [String.length_append]
    rfl
  have h1 := Nat.repr_length m a ha hm
  have h2 := Nat.repr_length d b hb hd
  have h3 := Nat.repr_length y c hc hy
  omega

/-- The label of 3 January 2017 is 1/3/2017, eight characters long. -/
theorem fetchChartPoints_date_label_witness :
    (sampleEnv (sampleBars, none) none none).GetHistory "AAPL"
        ((sampleEnv (sampleBars, none) none none).ParseDatetime "2016-12-01")
        ((sampleEnv (sampleBars, none) none none).ParseDatetime "2017-06-20") "1d"
        = (sampleBars, none)
      ∧ 0 < sampleBars.length
      ∧ (fetchChartPoints (sampleEnv (sampleBars, none) none none) "AAPL" "1d").dates[0]?
          = some "1/3/2017" :=
  ⟨rfl, by decide,
    (fetchChartPoints_date_label (sampleEnv (sampleBars, none) none none) "AAPL" "1d"
      sampleBars rfl 0 (by decide)).1⟩

end Fetch

/-! ## The guards of chartFunc -/

section Guards

variable {D F E : Type}

/-- C3: on one symbol, when the provider answers with zero bars and no error,
chartFunc panics after the provider call: the display session is never
requested (no call of ui.Init), draw is never entered and nothing is
rendered. -/
theorem chartFunc_empty_answer (env : Env D F E) (sym : String)
    (hanswer : env.GetHistory sym (env.ParseDatetime env.flagStartTime)
      (env.ParseDatetime env.flagEndTime) env.flagInterval = ([], none)) :
    chartFunc env [sym]
        = ([.getHistory sym (env.ParseDatetime env.flagStartTime)
              (env.ParseDatetime env.flagEndTime) env.flagInterval],
           .panicked (.str "no "))
      ∧ Event.uiInit ∉ (chartFunc env [sym]).1
      ∧ (∀ s p d, Event.draw s p d ∉ (chartFunc env [sym]).1)
      ∧ (∀ chartPane, Event.render chartPane ∉ (chartFunc env [sym]).1) := by
  have h : chartFunc env [sym]
      = ([.getHistory sym (env.ParseDatetime env.flagStartTime)
            (env.ParseDatetime env.flagEndTime) env.flagInterval],
         .panicked (.str "no ")) := by
    rw [chartFunc_single, fetchChartPoints_of_ok env sym env.flagInterval [] hanswer]
    simp
  rw [h]
  simp

/-- A run with an empty provider answer: the command panics with the provider
call as its only event. -/
theorem chartFunc_empty_answer_witness :
    (sampleEnv ([], none) none none).GetHistory "AAPL"
        ((sampleEnv ([], none) none none).ParseDatetime "2016-12-01")
        ((sampleEnv ([], none) none none).ParseDatetime "2017-06-20") "1d" = ([], none)
      ∧ chartFunc (sampleEnv ([], none) none none) ["AAPL"]
        = ([.getHistory "AAPL" ⟨0, 0, 0⟩ ⟨0, 0, 0⟩ "1d"], .panicked (.str "no ")) :=
  ⟨rfl, (chartFunc_empty_answer (sampleEnv ([], none) none none) "AAPL" rfl).1⟩

/-- C4: with more than one positional argument chartFunc prints the usage
message and returns; the message is the only event, so the provider is not
called, the display session is not requested and nothing is drawn. -/
theorem chartFunc_too_many_symbols (env : Env D F E) (args : List String)
    (hargs : 1 < args.length) :
    chartFunc env args
        = ([.printf "\nToo many symbols, only 1 symbol is allowed for charting.\n\n"],
           .returned)
      ∧ (∀ s a b i, Event.getHistory s a b i ∉ (chartFunc env args).1)
      ∧ Event.uiInit ∉ (chartFunc env args).1
      ∧ (∀ s p d, Event.draw s p d ∉ (chartFunc env args).1)
      ∧ (∀ chartPane, Event.render chartPane ∉ (chartFunc env args).1) := by
  rw [chartFunc_many env args hargs]
  simp

/-- A run with two symbols. -/
theorem chartFunc_too_many_symbols_witness :
    1 < ["AAPL", "MSFT"].length
      ∧ chartFunc (sampleEnv (sampleBars, none) none none) ["AAPL", "MSFT"]
        = ([.printf "\nToo many symbols, only 1 symbol is allowed for charting.\n\n"],
           .returned) :=
  ⟨by decide,
    (chartFunc_too_many_symbols (sampleEnv (sampleBars, none) none none) ["AAPL", "MSFT"]
      (by decide)).1⟩

/-- C5: when the provider answers with an error, fetchChartPoints returns that
error unchanged with no points and no labels, whatever bars came with it; and
chartFunc, which fetches at the interval of the flag, then panics with the same
error right after the provider call, without requesting the display session and
without drawing. -/
theorem provider_error_surfaces (env : Env D F E) (sym interval : String)
    (bars : List (Bar D)) (e : E)
    (hanswer : env.GetHistory sym (env.ParseDatetime env.flagStartTime)
      (env.ParseDatetime env.flagEndTime) interval = (bars, some e)) :
    (fetchChartPoints env sym interval).err = some e
      ∧ (fetchChartPoints env sym interval).points = []
      ∧ (fetchChartPoints env sym interval).dates = []
      ∧ (interval = env.flagInterval →
          chartFunc env [sym]
              = ([.getHistory sym (env.ParseDatetime env.flagStartTime)
                    (env.ParseDatetime env.flagEndTime) env.flagInterval],
                 .panicked (.error e))
            ∧ Event.uiInit ∉ (chartFunc env [sym]).1
            ∧ (∀ s p d, Event.draw s p d ∉ (chartFunc env [sym]).1)
            ∧ (∀ chartPane, Event.render chartPane ∉ (chartFunc env [sym]).1)) := by
  have hf := fetchChartPoints_of_error env sym interval bars e hanswer
  refine ⟨by rw [hf], by rw [hf], by rw [hf], ?_⟩
  intro hflag
  subst hflag
  have h : chartFunc env [sym]
      = ([.getHistory sym (env.ParseDatetime env.flagStartTime)
            (env.ParseDatetime env.flagEndTime) env.flagInterval],
         .panicked (.error e)) := by
    rw [chartFunc_single, hf]
  rw [h]
  simp

/-- A run in which the provider fails while also handing back bars. -/
theorem provider_error_surfaces_witness :
    (sampleEnv (sampleBars, some "rate limited") none none).GetHistory "AAPL"
        ((sampleEnv (sampleBars, some "rate limited") none none).ParseDatetime "2016-12-01")
        ((sampleEnv (sampleBars, some "rate limited") none none).ParseDatetime "2017-06-20")
        "1d" = (sampleBars, some "rate limited")
      ∧ (fetchChartPoints (sampleEnv (sampleBars, some "rate limited") none none)
          "AAPL" "1d").err = some "rate limited"
      ∧ chartFunc (sampleEnv (sampleBars, some "rate limited") none none) ["AAPL"]
        = ([.getHistory "AAPL" ⟨0, 0, 0⟩ ⟨0, 0, 0⟩ "1d"],
           .panicked (.error "rate limited")) :=
  ⟨rfl,
    (provider_error_surfaces (sampleEnv (sampleBars, some "rate limited") none none)
      "AAPL" "1d" sampleBars "rate limited" rfl).1,
    ((provider_error_surfaces (sampleEnv (sampleBars, some "rate limited") none none)
      "AAPL" "1d" sampleBars "rate limited" rfl).2.2.2 rfl).1⟩

end Guards

/-! ## The widget built by draw -/

section Widget

variable {D F E : Type}

/-- C6: the widget draw renders for N points has width N + ⌊N / 10⌋, which is at
least N, and height 20; and draw does render a widget whenever the date slice
is not empty. -/
theorem draw_width_height (env : Env D F E) (symbol : String) (points : List F)
    (dates : List String) :
    (dates ≠ [] → ∃ chartPane, Event.render chartPane ∈ (draw env symbol points dates).1)
      ∧ ∀ chartPane, Event.render chartPane ∈ (draw env symbol points dates).1 →
          chartPane.Width = ((points.length + points.length / 10 : Nat) : Int)
            ∧ chartPane.Height = 20
            ∧ (points.length : Int) ≤ chartPane.Width := by
  cases dates with
  | nil => simp [draw_nil]
  | cons x xs =>
    obtain ⟨last, hlast⟩ : ∃ last, (x :: xs).getLast? = some last :=
      ⟨(x :: xs).getLast (by simp), List.getLast?_eq_getLast _ _⟩
    obtain ⟨cp, rest, o, hd, hrest, -, hw, hh⟩ :=
      draw_of_first_last env symbol points (x :: xs) x last rfl hlast
    rw [hd]
    refine ⟨fun _ => ⟨cp, by simp⟩, ?_⟩
    intro chartPane hmem
    have hcp : chartPane = cp := by
      simp only [List.mem_cons] at hmem
      rcases hmem with h | h | h
      · cases h
      · exact Event.render.inj h
      · rcases hrest _ h with h | h <;> cases h
    subst hcp
    refine ⟨hw, hh, ?_⟩
    rw [hw]
    exact_mod_cast Nat.le_add_right _ _

/-- Five points give a widget of width 5 and height 20. -/
theorem draw_width_height_witness :
    ∃ chartPane,
      Event.render chartPane ∈ (draw (sampleEnv (sampleBars, none) none none) "AAPL"
          [11500, 11625, 11480, 11710, 11800]
          ["1/3/2017", "1/4/2017", "1/5/2017", "1/6/2017", "1/9/2017"]).1
        ∧ chartPane.Width = 5 ∧ chartPane.Height = 20 := by
  obtain ⟨cp, hcp⟩ := (draw_width_height (sampleEnv (sampleBars, none) none none) "AAPL"
      [11500, 11625, 11480, 11710, 11800]
      ["1/3/2017", "1/4/2017", "1/5/2017", "1/6/2017", "1/9/2017"]).1 (by simp)
  have h := (draw_width_height (sampleEnv (sampleBars, none) none none) "AAPL"
      [11500, 11625, 11480, 11710, 11800]
      ["1/3/2017", "1/4/2017", "1/5/2017", "1/6/2017", "1/9/2017"]).2 cp hcp
  exact ⟨cp, hcp, h.1, h.2.1⟩

/-- C7: on a date slice with first element first and last element last, draw
renders a widget, and the border label of the widget it renders is two spaces,
the symbol, the text " Daily Chart (", first, " - ", last, ")" and two spaces.
On a slice of one label that label stands in both places. -/
theorem draw_borderLabel (env : Env D F E) (symbol : String) (points : List F)
    (dates : List String) (first last : String)
    (hfirst : dates.head? = some first) (hlast : dates.getLast? = some last) :
    (∃ chartPane, Event.render chartPane ∈ (draw env symbol points dates).1)
      ∧ (∀ chartPane, Event.render chartPane ∈ (draw env symbol points dates).1 →
          chartPane.BorderLabel
            = "  " ++ symbol ++ " Daily Chart (" ++ first ++ " - " ++ last ++ ")  ")
      ∧ (dates.length = 1 → first = last) := by
  obtain ⟨cp, rest, o, hd, hrest, hb, -⟩ :=
    draw_of_first_last env symbol points dates first last hfirst hlast
  rw [hd]
  refine ⟨⟨cp, by simp⟩, ?_, ?_⟩
  · intro chartPane hmem
    have hcp : chartPane = cp := by
      simp only [List.mem_cons] at hmem
      rcases hmem with h | h | h
      · cases h
      · exact Event.render.inj h
      · rcases hrest _ h with h | h <;> cases h
    rw [hcp, hb]
  · intro hlen
    match dates, hlen, hfirst, hlast with
    | [x], _, h1, h2 =>
      simp at h1 h2
      rw [← h1, ← h2]

/-- The border label for AAPL between 3 January and 20 June 2017. -/
theorem draw_borderLabel_witness :
    ["1/3/2017", "6/20/2017"].head? = some "1/3/2017"
      ∧ ["1/3/2017", "6/20/2017"].getLast? = some "6/20/2017"
      ∧ ∃ chartPane,
          Event.render chartPane ∈ (draw (sampleEnv (sampleBars, none) none none) "AAPL"
            [11500, 11800] ["1/3/2017", "6/20/2017"]).1
          ∧ chartPane.BorderLabel = "  AAPL Daily Chart (1/3/2017 - 6/20/2017)  " := by
  refine ⟨rfl, rfl, ?_⟩
  obtain ⟨cp, hcp⟩ := (draw_borderLabel (sampleEnv (sampleBars, none) none none) "AAPL"
      [11500, 11800] ["1/3/2017", "6/20/2017"] "1/3/2017" "6/20/2017" rfl rfl).1
  exact ⟨cp, hcp,
    (draw_borderLabel (sampleEnv (sampleBars, none) none none) "AAPL"
      [11500, 11800] ["1/3/2017", "6/20/2017"] "1/3/2017" "6/20/2017" rfl rfl).2.1 cp hcp⟩

end Widget

/-! ## The display session and the reach of draw -/

section Session

variable {D F E : Type}

/-- The run of chartFunc on one symbol starts with the provider call. -/
theorem chartFunc_single_head (env : Env D F E) (sym : String) :
    ∃ rest, (chartFunc env [sym]).1
      = .getHistory sym (env.ParseDatetime env.flagStartTime)
          (env.ParseDatetime env.flagEndTime) env.flagInterval :: rest := by
  rw [chartFunc_single]
  have ht := (fetchChartPoints_shape env sym env.flagInterval).1
  cases herr : (fetchChartPoints env sym env.flagInterval).err with
  | some e => exact ⟨[], by simp [ht]⟩
  | none =>
    by_cases hlen : (fetchChartPoints env sym env.flagInterval).points.length = 0
    · exact ⟨[], by simp [ht, hlen]⟩
    · cases hinit : env.Init with
      | some e => exact ⟨[.uiInit], by simp [ht, hlen]⟩
      | none =>
        exact ⟨.uiInit :: ((draw env sym (fetchChartPoints env sym env.flagInterval).points
          (fetchChartPoints env sym env.flagInterval).dates).1 ++ [.uiClose]),
          by simp [ht, hlen]⟩

/-- The runs of chartFunc that request the display session: one symbol, a
provider answer without error and with at least one point. The events before
ui.Init are the provider call alone. -/
theorem chartFunc_of_uiInit (env : Env D F E) (args : List String)
    (h : Event.uiInit ∈ (chartFunc env args).1) :
    ∃ sym, args = [sym]
      ∧ (fetchChartPoints env sym env.flagInterval).err = none
      ∧ (fetchChartPoints env sym env.flagInterval).points.length ≠ 0 := by
  match args with
  | [] => simp [chartFunc_nil] at h
  | [sym] =>
    refine ⟨sym, rfl, ?_⟩
    rw [chartFunc_single] at h
    have ht := (fetchChartPoints_shape env sym env.flagInterval).1
    cases herr : (fetchChartPoints env sym env.flagInterval).err with
    | some e => simp [herr, ht] at h
    | none =>
      refine ⟨rfl, ?_⟩
      intro hlen
      simp [herr, ht, hlen] at h
  | a :: b :: rest =>
    simp [chartFunc_many env (a :: b :: rest) (by simp)] at h

/-- C8: in every run of chartFunc that requests the display session, if ui.Init
answers nil then ui.Close is called exactly once, as the last event of the run
and after ui.Init, and this holds whether draw returned or panicked: the run
contains one call of draw, and chartFunc ends the way that call ended. If ui.Init
answers an error, chartFunc panics with that error, draw is not entered, nothing
is rendered and ui.Close is not called. -/
theorem chartFunc_releases_session (env : Env D F E) (args : List String)
    (hinit : Event.uiInit ∈ (chartFunc env args).1) :
    (env.Init = none →
        ∃ before s p d,
          (chartFunc env args).1 = before ++ [.uiClose]
            ∧ Event.uiClose ∉ before
            ∧ Event.uiInit ∈ before
            ∧ Event.draw s p d ∈ before
            ∧ (chartFunc env args).2 = (draw env s p d).2)
      ∧ (∀ e, env.Init = some e →
          (chartFunc env args).2 = .panicked (.error e)
            ∧ Event.uiClose ∉ (chartFunc env args).1
            ∧ (∀ s p d, Event.draw s p d ∉ (chartFunc env args).1)
            ∧ (∀ chartPane, Event.render chartPane ∉ (chartFunc env args).1)) := by
  obtain ⟨sym, rfl, herr, hlen⟩ := chartFunc_of_uiInit env args hinit
  have ht := (fetchChartPoints_shape env sym env.flagInterval).1
  rw [chartFunc_single]
  constructor
  · intro hnone
    refine ⟨(fetchChartPoints env sym env.flagInterval).trace ++ [.uiInit]
        ++ (draw env sym (fetchChartPoints env sym env.flagInterval).points
              (fetchChartPoints env sym env.flagInterval).dates).1,
      sym, (fetchChartPoints env sym env.flagInterval).points,
      (fetchChartPoints env sym env.flagInterval).dates, ?_, ?_, ?_, ?_, ?_⟩
    · simp [herr, hlen, hnone]
    · intro hmem
      simp only [ht, List.mem_append, List.mem_cons, List.mem_singleton,
        List.not_mem_nil, or_false] at hmem
      rcases hmem with (h | h) | h
      · cases h
      · cases h
      · rcases draw_events env _ _ _ _ h with h | ⟨_, h⟩ | h | h <;> cases h
    · simp
    · have hne : (fetchChartPoints env sym env.flagInterval).dates ≠ [] := by
        intro hnil
        have := (fetchChartPoints_shape env sym env.flagInterval).2
        rw [hnil] at this
        exact hlen (by simpa using this)
      obtain ⟨x, xs, hx⟩ := List.exists_cons_of_ne_nil hne
      obtain ⟨last, hlast⟩ : ∃ last, (x :: xs).getLast? = some last :=
        ⟨(x :: xs).getLast (by simp), List.getLast?_eq_getLast _ _⟩
      obtain ⟨cp, rest, o, hd, -⟩ :=
        draw_of_first_last env sym (fetchChartPoints env sym env.flagInterval).points
          (x :: xs) x last rfl hlast
      rw [hx, hd]
      simp
    · simp [herr, hlen, hnone]
  · intro e hsome
    simp [herr, hlen, hsome, ht]

/-- Two runs on the sample answer: in the first draw returns, in the second the
rendering panics; both end with the one call of ui.Close. -/
theorem chartFunc_releases_session_witness :
    (Event.uiInit ∈ (chartFunc (sampleEnv (sampleBars, none) none none) ["AAPL"]).1
      ∧ (sampleEnv (sampleBars, none) none none).Init = none
      ∧ (chartFunc (sampleEnv (sampleBars, none) none none) ["AAPL"]).2 = .returned
      ∧ ∃ before,
          (chartFunc (sampleEnv (sampleBars, none) none none) ["AAPL"]).1
              = before ++ [.uiClose]
            ∧ Event.uiClose ∉ before)
    ∧ (Event.uiInit ∈ (chartFunc (sampleEnv (sampleBars, none) none
          (some (.str "render failed"))) ["AAPL"]).1
      ∧ (sampleEnv (sampleBars, none) none (some (.str "render failed"))).Init = none
      ∧ (chartFunc (sampleEnv (sampleBars, none) none
          (some (.str "render failed"))) ["AAPL"]).2 = .panicked (.str "render failed")
      ∧ ∃ before,
          (chartFunc (sampleEnv (sampleBars, none) none
            (some (.str "render failed"))) ["AAPL"]).1 = before ++ [.uiClose]
          ∧ Event.uiClose ∉ before) := by
  have hret : Event.uiInit ∈ (chartFunc (sampleEnv (sampleBars, none) none none)
      ["AAPL"]).1 := by
    simp [chartFunc, index, fetchChartPoints, sampleEnv, sampleBars, fetchStep]
  have hpanic : Event.uiInit ∈ (chartFunc (sampleEnv (sampleBars, none) none
      (some (.str "render failed"))) ["AAPL"]).1 := by
    simp [chartFunc, index, fetchChartPoints, sampleEnv, sampleBars, fetchStep]
  obtain ⟨before, s, p, d, h1, h2, -⟩ :=
    (chartFunc_releases_session (sampleEnv (sampleBars, none) none none) ["AAPL"]
      hret).1 rfl
  obtain ⟨before2, s2, p2, d2, h3, h4, -⟩ :=
    (chartFunc_releases_session (sampleEnv (sampleBars, none) none
      (some (.str "render failed"))) ["AAPL"] hpanic).1 rfl
  exact ⟨⟨hret, rfl, by decide, before, h1, h2⟩, ⟨hpanic, rfl, by decide, before2, h3, h4⟩⟩

end Session

section Reach

variable {D F E : Type}

/-- C9: whenever chartFunc enters draw, the points and the labels it passes have
the same length, that length is at least 1, and both index expressions of draw,
dates[0] and dates[len(dates)-1], yield an element: draw goes on to render its
widget, so neither index panic of draw is reachable from chartFunc. -/
theorem chartFunc_draw_in_bounds (env : Env D F E) (args : List String) (s : String)
    (p : List F) (d : List String)
    (hdraw : Event.draw s p d ∈ (chartFunc env args).1) :
    p.length = d.length
      ∧ 1 ≤ d.length
      ∧ (∃ first, index (E := E) d 0 = .ok first)
      ∧ (∃ last, index (E := E) d ((d.length : Int) - 1) = .ok last)
      ∧ (∃ chartPane, Event.render chartPane ∈ (draw env s p d).1) := by
  have key : p.length = d.length ∧ p.length ≠ 0 := by
    match args with
    | [] => simp [chartFunc_nil] at hdraw
    | a :: b :: rest => simp [chartFunc_many env (a :: b :: rest) (by simp)] at hdraw
    | [sym] =>
      rw [chartFunc_single] at hdraw
      obtain ⟨ht, hsame⟩ := fetchChartPoints_shape env sym env.flagInterval
      cases herr : (fetchChartPoints env sym env.flagInterval).err with
      | some e => simp [herr, ht] at hdraw
      | none =>
        by_cases hlen : (fetchChartPoints env sym env.flagInterval).points.length = 0
        · simp [herr, ht, hlen] at hdraw
        · cases hinit : env.Init with
          | some e => simp [herr, ht, hlen, hinit] at hdraw
          | none =>
            simp only [herr, hlen, hinit, ht, if_false, List.mem_append, List.mem_cons,
              List.mem_singleton, List.not_mem_nil, or_false] at hdraw
            rcases hdraw with ((h | h) | h) | h
            · cases h
            · cases h
            · rcases draw_events env _ _ _ _ h with h | ⟨_, h⟩ | h | h
              · cases h
                exact ⟨hsame, hlen⟩
              · cases h
              · cases h
              · cases h
            · cases h
  obtain ⟨hsame, hpos⟩ := key
  have hne : d ≠ [] := by
    rintro rfl
    exact hpos (by simpa using hsame)
  obtain ⟨x, xs, rfl⟩ := List.exists_cons_of_ne_nil hne
  obtain ⟨last, hlast⟩ : ∃ last, (x :: xs).getLast? = some last :=
    ⟨(x :: xs).getLast (by simp), List.getLast?_eq_getLast _ _⟩
  refine ⟨hsame, by simp, ⟨x, index_zero_cons x xs⟩, ⟨last, index_last _ last hlast⟩, ?_⟩
  obtain ⟨cp, rest, o, hd, -⟩ := draw_of_first_last env s p (x :: xs) x last rfl hlast
  exact ⟨cp, by rw [hd]; simp⟩

/-- The run on the sample answer enters draw with five points and five labels. -/
theorem chartFunc_draw_in_bounds_witness :
    Event.draw "AAPL" [11500, 11625, 11480, 11710, 11800]
        ["1/3/2017", "1/4/2017", "1/5/2017", "1/6/2017", "1/9/2017"]
        ∈ (chartFunc (sampleEnv (sampleBars, none) none none) ["AAPL"]).1
      ∧ ([11500, 11625, 11480, 11710, 11800] : List Int).length
          = ["1/3/2017", "1/4/2017", "1/5/2017", "1/6/2017", "1/9/2017"].length
      ∧ index (E := String) ["1/3/2017", "1/4/2017", "1/5/2017", "1/6/2017", "1/9/2017"] 0
          = .ok "1/3/2017" := by
  have hdraw : Event.draw "AAPL" [11500, 11625, 11480, 11710, 11800]
      ["1/3/2017", "1/4/2017", "1/5/2017", "1/6/2017", "1/9/2017"]
      ∈ (chartFunc (sampleEnv (sampleBars, none) none none) ["AAPL"]).1 := by
    have ht : (chartFunc (sampleEnv (sampleBars, none) none none) ["AAPL"]).1
        = [.getHistory "AAPL" ⟨0, 0, 0⟩ ⟨0, 0, 0⟩ "1d", .uiInit,
            .draw "AAPL" [11500, 11625, 11480, 11710, 11800]
              ["1/3/2017", "1/4/2017", "1/5/2017", "1/6/2017", "1/9/2017"],
            .render ⟨"dot", '+', "  AAPL Daily Chart (1/3/2017 - 1/9/2017)  ",
              [11500, 11625, 11480, 11710, 11800],
              ["1/3/2017", "1/4/2017", "1/5/2017", "1/6/2017", "1/9/2017"],
              5, 20, 0, 0, 8, 515⟩,
            .handle "/sys/kbd", .loop, .uiClose] := rfl
    rw [ht]
    simp
  have h := chartFunc_draw_in_bounds (sampleEnv (sampleBars, none) none none) ["AAPL"]
    "AAPL" [11500, 11625, 11480, 11710, 11800]
    ["1/3/2017", "1/4/2017", "1/5/2017", "1/6/2017", "1/9/2017"] hdraw
  exact ⟨hdraw, h.1, rfl⟩

/-- C10: on the empty argument list chartFunc passes the guard on the number of
arguments and panics on args[0] with no event at all: nothing is fetched, the
display session is not requested and nothing is drawn. In general the provider
is called if and only if there is exactly one argument. -/
theorem chartFunc_provider_call_iff (env : Env D F E) (args : List String) :
    chartFunc env [] = ([], .panicked (.indexOutOfRange 0 0))
      ∧ (chartFunc env []).2 ≠ .returned
      ∧ ((∃ s a b i, Event.getHistory s a b i ∈ (chartFunc env args).1)
          ↔ args.length = 1) := by
  refine ⟨chartFunc_nil env, by simp [chartFunc_nil], ?_⟩
  match args with
  | [] => simp [chartFunc_nil]
  | a :: b :: rest => simp [chartFunc_many env (a :: b :: rest) (by simp)]
  | [sym] =>
    obtain ⟨rest, hrest⟩ := chartFunc_single_head env sym
    simp only [List.length_singleton, iff_true]
    exact ⟨_, _, _, _, by rw [hrest]; exact List.mem_cons_self _ _⟩

end Reach

end Qtrn
